import Mathlib

set_option maxHeartbeats 1000000

/- Shallow embedding of src/revised/__init__.py, a Django model mixin that
   archives a revision record whenever a changed tracked instance is saved.
   Python objects are modelled as association lists from attribute names to
   values, the database as explicit lists of rows, and raised exceptions as
   the error side of Except.  Definitions follow the source line by line;
   the host-framework primitives (row insert, row delete, related-set query)
   are modelled after the narrow interface the specification assigns to them
   in its sections 6 and 8. -/

/-- Runtime values stored in model fields and settings, mirroring the Python
values the module manipulates: integers, strings, booleans, tuples of
strings (the unrevised_fields setting), None, and opaque objects such as
the generated admin options class.  Equality of two values is Python value
equality. -/
inductive Value where
  | vint : Int → Value
  | vstr : String → Value
  | vbool : Bool → Value
  | vstrs : List String → Value
  | vnone : Value
  | vobj : String → Value
deriving DecidableEq

/-- Python truthiness of a value, as tested by the `if value:` check in
RevisedSettings (src/revised/__init__.py line 46). -/
def Value.truthy : Value → Bool
  | .vint i => decide (i ≠ 0)
  | .vstr s => decide (s ≠ "")
  | .vbool b => b
  | .vstrs l => decide (l ≠ [])
  | .vnone => false
  | .vobj _ => true

/-- Exceptions the embedded code can raise.  `noSuchRevision` models the
NoSuchRevision class (lines 10-15), which the module defines and documents
but never raises; `doesNotExist` and `multipleObjectsReturned` model the
exceptions the query layer raises from `revisions.get(...)` (line 288);
`revisionExists` models RevisionExists (lines 17-22, raised at line 97),
carrying the revision number and the repr of the record; the remaining
constructors model the corresponding builtin Python exceptions. -/
inductive PyErr where
  | noSuchRevision
  | revisionExists (revisionNum : Value) (instanceName : String)
  | doesNotExist
  | multipleObjectsReturned
  | attributeError (attr : String)
  | keyError (key : String)
  | typeError
deriving DecidableEq

/-- Attribute lookup on an association list (getattr on an object whose
attribute dictionary we model as key-value pairs); returns the first
binding for the key, if any. -/
def alookup {α : Type} {β : Type} [DecidableEq α] : List (α × β) → α → Option β
  | [], _ => none
  | (k, v) :: rest, key => if k = key then some v else alookup rest key

/-- Attribute update on an association list (setattr): replace the first
binding for the key, or append a new binding when the key is absent. -/
def aset {α : Type} {β : Type} [DecidableEq α] : List (α × β) → α → β → List (α × β)
  | [], key, v => [(key, v)]
  | (k, w) :: rest, key, v =>
    if k = key then (key, v) :: rest else (k, w) :: aset rest key v

/-- Attribute removal on an association list (delattr). -/
def adel {α : Type} {β : Type} [DecidableEq α] : List (α × β) → α → List (α × β)
  | [], _ => []
  | (k, w) :: rest, key =>
    if k = key then adel rest key else (k, w) :: adel rest key

/-- Default settings dictionary built by RevisedSettings
(src/revised/__init__.py lines 30-37), in source assignment order. -/
def defaultSettings (name : String) : List (String × Value) :=
  [ ("foreign_key_field_name", Value.vstr name.toLower),
    ("related_name", Value.vstr "revisions"),
    ("revision_field_name", Value.vstr "revision"),
    ("revision_model_name", Value.vstr (name ++ "Revision")),
    ("unrevised_fields", Value.vstrs []),
    ("register_with_admin_site", Value.vbool false),
    ("RevisedAdmin", Value.vobj "AdminSettings") ]

/-- Names iterated by the override loop `for name in dir(settings)` at line
42, i.e. the non-underscore attributes of the settings class, in the sorted
order dir returns.  Entries contributed by the class machinery are either
underscore-prefixed (skipped at line 43) or, like mro, absent from the
old-style Meta class so that `getattr(opts, name, False)` yields the falsy
default and the entry has no effect; the effective names are exactly the
seven setting names. -/
def settingKeys : List String :=
  [ "RevisedAdmin", "foreign_key_field_name", "register_with_admin_site",
    "related_name", "revision_field_name", "revision_model_name",
    "unrevised_fields" ]

/-- One iteration of the override loop (lines 42-48): `value = getattr(opts,
name, False)`, and when value is truthy, `setattr(settings, name, value)`
followed by `delattr(opts, name)`.  The state is the pair (settings dict,
Meta attribute dict). -/
def settingsStep (p : List (String × Value) × List (String × Value))
    (key : String) : List (String × Value) × List (String × Value) :=
  match alookup p.2 key with
  | some v => if v.truthy then (aset p.1 key v, adel p.2 key) else p
  | none => p

/-- RevisedSettings (src/revised/__init__.py lines 24-50): merge defaults
with overrides found on the nested Meta block, removing each truthy
override from the block.  Returns the settings dictionary together with the
possibly modified Meta block. -/
def RevisedSettings (name : String)
    (metaAttrs : Option (List (String × Value))) :
    List (String × Value) × Option (List (String × Value)) :=
  match metaAttrs with
  | none => (defaultSettings name, none)
  | some opts =>
    let r := settingKeys.foldl settingsStep (defaultSettings name, opts)
    (r.1, some r.2)

/-- DEFAULT_ALLOWED_KWARGS (src/revised/__init__.py line 52). -/
def DEFAULT_ALLOWED_KWARGS : List String :=
  [ "null", "blank", "choices", "core", "db_column", "db_index",
    "db_tablespace", "default", "editable", "help_text", "unique",
    "unique_for_date", "unique_for_month", "unique_for_year",
    "validator_list", "name" ]

/-- filter_kwargs (src/revised/__init__.py lines 68-81).  The process-wide
ALLOWED_KWARGS_BY_TYPE table is built at import time by introspecting the
constructor of every host-framework field type (lines 53-66, an external
catalog per section 6 of the specification), so it is passed here as a
parameter.  A field-type name absent from the table makes the subscript
`ALLOWED_KWARGS_BY_TYPE[type]` raise KeyError before any filtering. -/
def filter_kwargs (kwargs : List (String × Value)) (ty : String)
    (allowedKwargsByType : List (String × List String)) :
    Except PyErr (List (String × Value)) :=
  match alookup allowedKwargsByType ty with
  | none => .error (PyErr.keyError ty)
  | some args =>
    .ok (kwargs.filter (fun kv => decide (kv.1 ∈ DEFAULT_ALLOWED_KWARGS ++ args)))

/-- Static shape of one tracked model class, as assembled by
RevisedModelBase.__new__: the non-primary-key field names of the tracked
model (the injected revision field of line 120 included), the resolved
setting values the runtime methods read, and the name of the generated
revision model class.  The primary key is kept outside the field list, so
the `primary_key` skip of lines 127 and 293 is built into the model. -/
structure ModelConfig where
  fieldNames : List String
  revision_field_name : String
  unrevised_fields : List String
  revision_model_name : String

/-- revised_field_names (src/revised/__init__.py lines 124-136): every
non-primary-key field name not listed in unrevised_fields. -/
def revisedFieldNames (cfg : ModelConfig) : List String :=
  cfg.fieldNames.filter (fun f => decide (f ∉ cfg.unrevised_fields))

/-- One tracked model instance: primary key (None until first saved), the
current field values, and the `_revised_initial_values` snapshot attribute
installed by the post_init and post_save signal handler (line 315), absent
only on an object that never went through those hooks. -/
structure PyInstance where
  pk : Option Nat
  fields : List (String × Value)
  snapshot : Option (List (String × Value))
deriving DecidableEq

/-- One row of the generated revision model: primary key, the foreign key
back to the tracked instance (stored by primary key), and the copied field
values, the revision number among them. -/
structure RevisionRecord where
  pk : Option Nat
  fkey : Option Nat
  fields : List (String × Value)
deriving DecidableEq

/-- The backing store: the tracked model table (rows keyed by primary key),
the revision model table, and the next primary key each table will assign.
Insertion and deletion of rows model the host-framework save and delete
primitives through the narrow interface of specification section 6. -/
structure DB where
  instances : List (Nat × List (String × Value))
  revisions : List RevisionRecord
  nextInstancePk : Nat
  nextRevisionPk : Nat
deriving DecidableEq

/-- getattr with the fields dictionary of an object; fields referenced by
the embedded methods always exist on well-formed instances, so a missing
name is mapped to None. -/
def getattrD (fields : List (String × Value)) (key : String) : Value :=
  (alookup fields key).getD Value.vnone

/-- setattr on a tracked instance. -/
def setattrF (inst : PyInstance) (key : String) (v : Value) : PyInstance :=
  { inst with fields := aset inst.fields key v }

/-- record_model_values (src/revised/__init__.py lines 300-315), connected
to post_init and post_save: store the current value of every revised field
in `_revised_initial_values`, replacing any prior snapshot. -/
def record_model_values (cfg : ModelConfig) (inst : PyInstance) : PyInstance :=
  { inst with
    snapshot :=
      some ((revisedFieldNames cfg).map (fun f => (f, getattrD inst.fields f))) }

/-- RevisedModel.__changed (src/revised/__init__.py lines 226-235): true
when any snapshot entry differs from the current field value.  Reading
`self._revised_initial_values` on an instance that has no snapshot
attribute raises AttributeError. -/
def changed (inst : PyInstance) : Except PyErr Bool :=
  match inst.snapshot with
  | none => .error (PyErr.attributeError "_revised_initial_values")
  | some snap =>
    .ok (snap.any (fun kv => decide (getattrD inst.fields kv.1 ≠ kv.2)))

/-- repr(self) for a revision record (line 96), used as the human-readable
identifier inside the RevisionExists message. -/
def reprRevision (cfg : ModelConfig) (_r : RevisionRecord) : String :=
  "<" ++ cfg.revision_model_name ++ " object>"

/-- revision_model_save (src/revised/__init__.py lines 83-98), the save
method installed on the generated revision model: when the primary key is
unset, persist through the ordinary model save (which assigns the key and
inserts the row); otherwise raise RevisionExists carrying
`getattr(self, settings.revision_field_name)` and repr(self).  The raise
happens before any store operation, so a failed save leaves the store
untouched. -/
def revision_model_save (cfg : ModelConfig) (r : RevisionRecord) (db : DB) :
    Except PyErr (RevisionRecord × DB) :=
  match r.pk with
  | none =>
    let r1 : RevisionRecord := { r with pk := some db.nextRevisionPk }
    .ok (r1, { db with revisions := db.revisions ++ [r1],
                       nextRevisionPk := db.nextRevisionPk + 1 })
  | some _ =>
    match alookup r.fields cfg.revision_field_name with
    | some v => .error (PyErr.revisionExists v (reprRevision cfg r))
    | none => .error (PyErr.attributeError cfg.revision_field_name)

/-- RevisedModel.__save_revision (src/revised/__init__.py lines 237-248):
build a revision record from the snapshot kwargs, point its foreign key at
self, save it, and return the snapshot value of the revision field
(`kwargs[self.__setting(revision_field_name)]`, a KeyError when absent). -/
def save_revision (cfg : ModelConfig) (inst : PyInstance) (db : DB) :
    Except PyErr (Value × DB) :=
  match inst.snapshot with
  | none => .error (PyErr.attributeError "_revised_initial_values")
  | some snap =>
    let revision : RevisionRecord := { pk := none, fkey := inst.pk, fields := snap }
    match revision_model_save cfg revision db with
    | .error e => .error e
    | .ok (_, db1) =>
      match alookup snap cfg.revision_field_name with
      | some v => .ok (v, db1)
      | none => .error (PyErr.keyError cfg.revision_field_name)

/-- Python integer increment `just_saved_revision + 1` (line 262); adding
one to a non-integer raises TypeError. -/
def valueAddOne : Value → Except PyErr Value
  | .vint i => .ok (.vint (i + 1))
  | _ => .error PyErr.typeError

/-- Host-framework Model.save for the tracked model, through the interface
of specification section 6: assign the next primary key and insert the row
when the key is unset, otherwise update the row in place; afterwards the
post_save signal runs record_model_values (line 317). -/
def super_save (cfg : ModelConfig) (inst : PyInstance) (db : DB) :
    PyInstance × DB :=
  match inst.pk with
  | none =>
    let inst1 : PyInstance := { inst with pk := some db.nextInstancePk }
    let db1 : DB := { db with
      instances := aset db.instances db.nextInstancePk inst1.fields,
      nextInstancePk := db.nextInstancePk + 1 }
    (record_model_values cfg inst1, db1)
  | some p =>
    (record_model_values cfg inst,
     { db with instances := aset db.instances p inst.fields })

/-- RevisedModel.save (src/revised/__init__.py lines 250-263): when the
instance has a primary key and has changed, save the snapshot as a new
revision, set the revision field to the just-saved revision number plus
one, then perform the ordinary save; otherwise perform the ordinary save
directly.  The `and` at line 259 short-circuits, so __changed is not
evaluated when the primary key is None. -/
def save (cfg : ModelConfig) (inst : PyInstance) (db : DB) :
    Except PyErr (PyInstance × DB) :=
  match inst.pk with
  | none => .ok (super_save cfg inst db)
  | some _ =>
    match changed inst with
    | .error e => .error e
    | .ok false => .ok (super_save cfg inst db)
    | .ok true =>
      match save_revision cfg inst db with
      | .error e => .error e
      | .ok (v, db1) =>
        match valueAddOne v with
        | .error e => .error e
        | .ok v1 =>
          .ok (super_save cfg (setattrF inst cfg.revision_field_name v1) db1)

/-- Host-framework Model.delete for the tracked model, through the
interface of specification sections 6 and 8 (which has revision records
remain queryable after a shallow delete): remove the instance row. -/
def super_delete (inst : PyInstance) (db : DB) : DB :=
  { db with instances := db.instances.filter (fun q => decide (some q.1 ≠ inst.pk)) }

/-- RevisedModel.delete (src/revised/__init__.py lines 265-278): when deep,
delete every revision record related to this instance, then delete the
instance; otherwise save the snapshot as one final revision, then delete
the instance. -/
def delete (cfg : ModelConfig) (inst : PyInstance) (db : DB) (deep : Bool) :
    Except PyErr DB :=
  if deep then
    let db1 : DB := { db with
      revisions := db.revisions.filter (fun r => decide (r.fkey ≠ inst.pk)) }
    .ok (super_delete inst db1)
  else
    match save_revision cfg inst db with
    | .error e => .error e
    | .ok (_, db1) => .ok (super_delete inst db1)

/-- RevisedModel.revert_to_revision (src/revised/__init__.py lines
280-298): `revisions.get(**{revision_field_name: n})` looks the record up
among the revision rows related to this instance, raising DoesNotExist for
no match and MultipleObjectsReturned for several; then every
non-primary-key field not listed in unrevised_fields is copied from the
record onto the instance in memory.  Nothing is saved or deleted. -/
def revert_to_revision (cfg : ModelConfig) (inst : PyInstance) (db : DB)
    (n : Value) : Except PyErr PyInstance :=
  match db.revisions.filter (fun r =>
      decide (r.fkey = inst.pk ∧
        alookup r.fields cfg.revision_field_name = some n)) with
  | [] => .error PyErr.doesNotExist
  | [old] =>
    .ok { inst with
          fields :=
            (revisedFieldNames cfg).foldl
              (fun fs fname => aset fs fname (getattrD old.fields fname))
              inst.fields }
  | _ :: _ :: _ => .error PyErr.multipleObjectsReturned

/-- Operations a caller can perform on one tracked instance: assign a
non-primary-key attribute, or call save. -/
inductive Op where
  | mutate (field : String) (v : Value)
  | save
deriving DecidableEq

/-- Field value assigned by the tracked model constructor: the injected
revision field carries default 1 (line 120), the remaining fields take the
supplied keyword value. -/
def constructVal (cfg : ModelConfig) (init : List (String × Value))
    (f : String) : Value :=
  if f = cfg.revision_field_name then Value.vint 1 else getattrD init f

/-- Construction of a fresh tracked instance: no primary key, constructor
field values, then the post_init signal runs record_model_values
(line 316). -/
def construct (cfg : ModelConfig) (init : List (String × Value)) : PyInstance :=
  record_model_values cfg
    { pk := none,
      fields := cfg.fieldNames.map (fun f => (f, constructVal cfg init f)),
      snapshot := none }

/-- The empty backing store. -/
def emptyDB : DB :=
  { instances := [], revisions := [], nextInstancePk := 0, nextRevisionPk := 0 }

/-- Run a sequence of mutate and save operations against one instance and
the store, stopping at the first raised exception. -/
def runOps (cfg : ModelConfig) :
    PyInstance × DB → List Op → Except PyErr (PyInstance × DB)
  | s, [] => .ok s
  | s, Op.mutate f v :: rest => runOps cfg (setattrF s.1 f v, s.2) rest
  | s, Op.save :: rest =>
    match save cfg s.1 s.2 with
    | .error e => .error e
    | .ok s1 => runOps cfg s1 rest

/-- Revision numbers of the archived revision records, in archive order. -/
def archivedRevisionNumbers (cfg : ModelConfig) (db : DB) : List Value :=
  db.revisions.map (fun r => getattrD r.fields cfg.revision_field_name)

/-- True when no mutate of the revision field occurs before the first save
of the operation sequence. -/
def revMutationAfterSaveOnly (cfg : ModelConfig) : List Op → Bool
  | [] => true
  | Op.save :: _ => true
  | Op.mutate f _ :: rest =>
    decide (f ≠ cfg.revision_field_name) && revMutationAfterSaveOnly cfg rest

/-- Invariant carried through the operation semantics for the revision
number monotonicity proof: the archived revision numbers so far are
1, 2, ..., m; the snapshot holds revision value m + 1; and before the
first save nothing has been archived and the revision field still holds
its default 1. -/
def C9Inv (cfg : ModelConfig) (inst : PyInstance) (db : DB) : Prop :=
  archivedRevisionNumbers cfg db =
    (List.range db.revisions.length).map (fun k : Nat => Value.vint (k + 1)) ∧
  (∃ snap, inst.snapshot = some snap ∧
    alookup snap cfg.revision_field_name =
      some (Value.vint (db.revisions.length + 1))) ∧
  (inst.pk = none →
    db.revisions = [] ∧
    getattrD inst.fields cfg.revision_field_name = Value.vint 1)

/-- Concrete tracked model used by witnesses and counterexamples: a single
user field `name` plus the injected revision field, default settings. -/
def exCfg : ModelConfig :=
  { fieldNames := ["name", "revision"],
    revision_field_name := "revision",
    unrevised_fields := [],
    revision_model_name := "EntryRevision" }

/-- Concrete instance for the revert counterexample: primary key 1, the
name field mutated to B, live revision number 2. -/
def exInstC2 : PyInstance :=
  { pk := some 1,
    fields := [("name", Value.vstr "B"), ("revision", Value.vint 2)],
    snapshot := some [("name", Value.vstr "B"), ("revision", Value.vint 2)] }

/-- Concrete store for the revert counterexample: one archived revision of
instance 1 holding name A and revision number 1. -/
def exDBC2 : DB :=
  { instances := [(1, [("name", Value.vstr "B"), ("revision", Value.vint 2)])],
    revisions := [{ pk := some 1, fkey := some 1,
                    fields := [("name", Value.vstr "A"), ("revision", Value.vint 1)] }],
    nextInstancePk := 2,
    nextRevisionPk := 2 }

/-- Concrete instance lacking the snapshot attribute, for the hasChanged
counterexample. -/
def noSnapshotInstance : PyInstance :=
  { pk := some 1, fields := [("name", Value.vstr "A")], snapshot := none }

/-- Concrete changed instance with a snapshot, for the save witness:
primary key 1, name mutated from A to B, snapshot at revision 1. -/
def exInstC3 : PyInstance :=
  { pk := some 1,
    fields := [("name", Value.vstr "B"), ("revision", Value.vint 1)],
    snapshot := some [("name", Value.vstr "A"), ("revision", Value.vint 1)] }

/-- Concrete store holding only instance 1, for the save witness. -/
def exDBC3 : DB :=
  { instances := [(1, [("name", Value.vstr "A"), ("revision", Value.vint 1)])],
    revisions := [],
    nextInstancePk := 2,
    nextRevisionPk := 0 }

/-- Operation sequence refuting the unconditional form of the revision
number claim: the revision field is mutated before the first save. -/
def exOpsBad : List Op :=
  [Op.mutate "revision" (Value.vint 5), Op.save,
   Op.mutate "name" (Value.vstr "B"), Op.save]

/-- The single revision record of exDBC2, for the revert witness. -/
def exOldC2 : RevisionRecord :=
  { pk := some 1, fkey := some 1,
    fields := [("name", Value.vstr "A"), ("revision", Value.vint 1)] }

/-- Fresh, never saved revision record, for the write-once witness. -/
def exRecNew : RevisionRecord :=
  { pk := none, fkey := some 1, fields := [("revision", Value.vint 1)] }

/-- Revision record constructed with a primary key already assigned, for
the guard witness. -/
def exRecPreassigned : RevisionRecord :=
  { pk := some 7, fkey := some 1, fields := [("revision", Value.vint 3)] }

/- Helper lemmas about association lists. -/

theorem alookup_aset_self {α : Type} {β : Type} [DecidableEq α]
    (l : List (α × β)) (k : α) (v : β) : alookup (aset l k v) k = some v := by
  induction l with
  | nil => simp [aset, alookup]
  | cons kv rest ih =>
    obtain ⟨a, b⟩ := kv
    by_cases h : a = k
    · simp [aset, alookup, h]
    · simp [aset, alookup, h, ih]

theorem alookup_aset_ne {α : Type} {β : Type} [DecidableEq α]
    (l : List (α × β)) (k k' : α) (v : β) (h : k' ≠ k) :
    alookup (aset l k v) k' = alookup l k' := by
  induction l with
  | nil => simp [aset, alookup, Ne.symm h]
  | cons kv rest ih =>
    obtain ⟨a, b⟩ := kv
    by_cases ha : a = k
    · subst ha
      simp [aset, alookup, Ne.symm h]
    · simp [aset, alookup, ha, ih]

theorem alookup_adel_self {α : Type} {β : Type} [DecidableEq α]
    (l : List (α × β)) (k : α) : alookup (adel l k) k = none := by
  induction l with
  | nil => rfl
  | cons kv rest ih =>
    obtain ⟨a, b⟩ := kv
    by_cases ha : a = k
    · simp [adel, ha, ih]
    · simp [adel, alookup, ha, ih]

theorem alookup_adel_ne {α : Type} {β : Type} [DecidableEq α]
    (l : List (α × β)) (k k' : α) (h : k' ≠ k) :
    alookup (adel l k) k' = alookup l k' := by
  induction l with
  | nil => rfl
  | cons kv rest ih =>
    obtain ⟨a, b⟩ := kv
    by_cases ha : a = k
    · subst ha
      simp [adel, alookup, Ne.symm h, ih]
    · simp [adel, alookup, ha, ih]

theorem alookup_map_self {α : Type} {β : Type} [DecidableEq α]
    (g : α → β) (l : List α) (k : α) (h : k ∈ l) :
    alookup (l.map (fun a => (a, g a))) k = some (g k) := by
  induction l with
  | nil => cases h
  | cons a rest ih =>
    by_cases ha : a = k
    · subst ha
      simp [alookup]
    · have hm : k ∈ rest := by
        rcases List.mem_cons.mp h with h1 | h1
        · exact absurd h1.symm ha
        · exact h1
      simp [alookup, ha, ih hm]

theorem alookup_mem {α : Type} {β : Type} [DecidableEq α]
    (l : List (α × β)) (k : α) (v : β) (h : alookup l k = some v) :
    (k, v) ∈ l := by
  induction l with
  | nil => simp [alookup] at h
  | cons kv rest ih =>
    obtain ⟨a, b⟩ := kv
    by_cases ha : a = k
    · subst ha
      simp [alookup] at h
      subst h
      exact List.mem_cons_self _ _
    · simp [alookup, ha] at h
      exact List.mem_cons_of_mem _ (ih h)

theorem alookup_foldl_aset {α : Type} {β : Type} [DecidableEq α]
    (g : α → β) (L : List α) :
    ∀ (fs : List (α × β)) (k : α),
      alookup (L.foldl (fun fs n => aset fs n (g n)) fs) k
        = if k ∈ L then some (g k) else alookup fs k := by
  induction L with
  | nil => intro fs k; simp
  | cons a rest ih =>
    intro fs k
    simp only [List.foldl_cons]
    rw [ih]
    by_cases hk : k ∈ rest
    · simp [hk, List.mem_cons]
    · by_cases hka : k = a
      · subst hka
        simp [hk, alookup_aset_self]
      · simp [hk, hka, List.mem_cons, alookup_aset_ne fs a k (g a) hka]

theorem filter_eq_nil_of_forall {α : Type} (l : List α) (p : α → Bool)
    (h : ∀ a ∈ l, p a = false) : l.filter p = [] := by
  induction l with
  | nil => rfl
  | cons a rest _ih =>
    simp [List.filter_cons, h a (List.mem_cons_self a rest)]
    intro b hb
    simp [h b (List.mem_cons_of_mem a hb)]

/- Lemmas about the settings override loop. -/

theorem settingsStep_preserve
    (p : List (String × Value) × List (String × Value)) (key k : String)
    (h : k ≠ key) :
    alookup (settingsStep p key).1 k = alookup p.1 k ∧
    alookup (settingsStep p key).2 k = alookup p.2 k := by
  unfold settingsStep
  cases halo : alookup p.2 key with
  | none => exact ⟨rfl, rfl⟩
  | some v =>
    by_cases ht : v.truthy
    · simp only [ht, if_true]
      exact ⟨alookup_aset_ne p.1 key k v h, alookup_adel_ne p.2 key k h⟩
    · simp only [ht]
      exact ⟨rfl, rfl⟩

theorem settingsFold_preserve (keys : List String) (k : String) :
    k ∉ keys → ∀ p : List (String × Value) × List (String × Value),
      alookup (keys.foldl settingsStep p).1 k = alookup p.1 k ∧
      alookup (keys.foldl settingsStep p).2 k = alookup p.2 k := by
  induction keys with
  | nil => intro _ p; exact ⟨rfl, rfl⟩
  | cons a rest ih =>
    intro hk p
    have hka : k ≠ a := fun he => hk (he ▸ List.mem_cons_self a rest)
    have hkr : k ∉ rest := fun hm => hk (List.mem_cons_of_mem a hm)
    have hstep := settingsStep_preserve p a k hka
    simp only [List.foldl_cons]
    exact ⟨((ih hkr (settingsStep p a)).1).trans hstep.1,
           ((ih hkr (settingsStep p a)).2).trans hstep.2⟩

theorem settingsFold_spec (keys : List String) (k : String) :
    keys.Nodup → k ∈ keys →
    ∀ s o : List (String × Value),
      alookup (keys.foldl settingsStep (s, o)).1 k =
        (match alookup o k with
         | some v => if v.truthy then some v else alookup s k
         | none => alookup s k) ∧
      alookup (keys.foldl settingsStep (s, o)).2 k =
        (match alookup o k with
         | some v => if v.truthy then none else some v
         | none => none) := by
  induction keys with
  | nil => intro _ hk; cases hk
  | cons a rest ih =>
    intro hnd hk s o
    have hnd2 := List.nodup_cons.mp hnd
    rcases List.mem_cons.mp hk with hka | hkr
    · subst hka
      have hnr : k ∉ rest := hnd2.1
      have hpre := settingsFold_preserve rest k hnr (settingsStep (s, o) k)
      simp only [List.foldl_cons]
      cases halo : alookup o k with
      | none =>
        have h1 : settingsStep (s, o) k = (s, o) := by
          unfold settingsStep
          rw [halo]
        rw [h1] at hpre
        rw [h1]
        exact ⟨hpre.1, hpre.2.trans halo⟩
      | some v =>
        by_cases ht : v.truthy
        · have h1 : settingsStep (s, o) k = (aset s k v, adel o k) := by
            unfold settingsStep
            rw [halo]
            simp [ht]
          rw [h1] at hpre
          rw [h1]
          simp only [ht, if_true]
          exact ⟨hpre.1.trans (alookup_aset_self s k v),
                 hpre.2.trans (alookup_adel_self o k)⟩
        · have h1 : settingsStep (s, o) k = (s, o) := by
            unfold settingsStep
            rw [halo]
            simp [ht]
          rw [h1] at hpre
          rw [h1]
          simp only [ht, if_false]
          exact ⟨hpre.1, hpre.2.trans halo⟩
    · have hka : k ≠ a := fun he => hnd2.1 (he ▸ hkr)
      have hstep := settingsStep_preserve (s, o) a k hka
      simp only [List.foldl_cons]
      cases hso : settingsStep (s, o) a with
      | mk s1 o1 =>
        rw [hso] at hstep
        have hih := ih hnd2.2 hkr s1 o1
        rw [hstep.1, hstep.2] at hih
        exact hih

/-- C6: the Settings Resolver produces the documented defaults
(foreign_key_field_name = lower-cased type name, related_name revisions,
revision_field_name revision, revision_model_name = type name ++ Revision,
empty unrevised_fields, admin flag false); a truthy attribute of the Meta
block whose name matches a setting overrides the default and is removed
from the block; an absent or falsy attribute leaves the default in force
and is not removed.  The resolver is a total function, so it cannot
fail. -/
theorem revisedSettings_defaults_and_overrides (name : String)
    (opts : List (String × Value)) (key : String) (hkey : key ∈ settingKeys) :
    (alookup (defaultSettings name) "foreign_key_field_name" =
        some (Value.vstr name.toLower) ∧
     alookup (defaultSettings name) "related_name" =
        some (Value.vstr "revisions") ∧
     alookup (defaultSettings name) "revision_field_name" =
        some (Value.vstr "revision") ∧
     alookup (defaultSettings name) "revision_model_name" =
        some (Value.vstr (name ++ "Revision")) ∧
     alookup (defaultSettings name) "unrevised_fields" =
        some (Value.vstrs []) ∧
     alookup (defaultSettings name) "register_with_admin_site" =
        some (Value.vbool false)) ∧
    RevisedSettings name none = (defaultSettings name, none) ∧
    (∃ s o1, RevisedSettings name (some opts) = (s, some o1) ∧
      alookup s key =
        (match alookup opts key with
         | some v => if v.truthy then some v
                     else alookup (defaultSettings name) key
         | none => alookup (defaultSettings name) key) ∧
      alookup o1 key =
        (match alookup opts key with
         | some v => if v.truthy then none else some v
         | none => none)) := by
  refine ⟨⟨rfl, rfl, rfl, rfl, rfl, rfl⟩, rfl, ?_⟩
  have h := settingsFold_spec settingKeys key (by decide) hkey
    (defaultSettings name) opts
  exact ⟨_, _, rfl, h.1, h.2⟩

/-- Witness for C6 at a concrete type name and Meta block: the truthy
related_name override takes effect and is removed from the block. -/
theorem revisedSettings_defaults_and_overrides_witness :
    ∃ s o1, RevisedSettings "Entry"
        (some [("related_name", Value.vstr "history")]) = (s, some o1) ∧
      alookup s "related_name" = some (Value.vstr "history") ∧
      alookup o1 "related_name" = none := by
  obtain ⟨-, -, s, o1, heq, hs, ho⟩ :=
    revisedSettings_defaults_and_overrides "Entry"
      [("related_name", Value.vstr "history")] "related_name" (by decide)
  refine ⟨s, o1, heq, ?_, ?_⟩
  · rw [hs]
    decide
  · rw [ho]
    decide

/-- C7: filter_kwargs keeps exactly the attributes whose keys are in the
baseline set or in the parameter list the table records for the field
type, silently dropping every other key, and raises KeyError for a
field-type name absent from the table. -/
theorem filter_kwargs_spec (kwargs : List (String × Value)) (ty : String)
    (table : List (String × List String)) :
    (∀ args, alookup table ty = some args →
      ∃ res, filter_kwargs kwargs ty table = .ok res ∧
        ∀ kv : String × Value,
          kv ∈ res ↔ kv ∈ kwargs ∧
            (kv.1 ∈ DEFAULT_ALLOWED_KWARGS ∨ kv.1 ∈ args)) ∧
    (alookup table ty = none →
      filter_kwargs kwargs ty table = .error (PyErr.keyError ty)) := by
  constructor
  · intro args h
    refine ⟨kwargs.filter
      (fun kv => decide (kv.1 ∈ DEFAULT_ALLOWED_KWARGS ++ args)), ?_, ?_⟩
    · unfold filter_kwargs
      rw [h]
    · intro kv
      simp [List.mem_filter, List.mem_append]
  · intro h
    unfold filter_kwargs
    rw [h]

/-- Witness for C7: a known field type keeps exactly the allowed keys; an
unknown field type raises KeyError. -/
theorem filter_kwargs_spec_witness :
    (∃ res, filter_kwargs
        [("null", Value.vbool true), ("junk", Value.vint 1),
         ("max_length", Value.vint 30)]
        "CharField" [("CharField", ["max_length"])] = .ok res ∧
      ∀ kv : String × Value,
        kv ∈ res ↔ kv ∈ [("null", Value.vbool true), ("junk", Value.vint 1),
            ("max_length", Value.vint 30)] ∧
          (kv.1 ∈ DEFAULT_ALLOWED_KWARGS ∨ kv.1 ∈ ["max_length"])) ∧
    filter_kwargs [] "UnknownField" [("CharField", ["max_length"])] =
      .error (PyErr.keyError "UnknownField") :=
  ⟨(filter_kwargs_spec
      [("null", Value.vbool true), ("junk", Value.vint 1),
       ("max_length", Value.vint 30)]
      "CharField" [("CharField", ["max_length"])]).1 ["max_length"] rfl,
   (filter_kwargs_spec [] "UnknownField" [("CharField", ["max_length"])]).2 rfl⟩

/-- C1 (code bug): when no revision record of the instance matches the
requested revision number, revert_to_revision surfaces the DoesNotExist
error of the query layer, not the NoSuchRevision error the module defines
and documents for exactly this situation; NoSuchRevision is never raised
anywhere in the module. -/
theorem revert_missing_revision_raises_doesNotExist (cfg : ModelConfig)
    (inst : PyInstance) (db : DB) (n : Value)
    (h : ∀ r ∈ db.revisions,
      ¬(r.fkey = inst.pk ∧ alookup r.fields cfg.revision_field_name = some n)) :
    revert_to_revision cfg inst db n = .error PyErr.doesNotExist ∧
    PyErr.doesNotExist ≠ PyErr.noSuchRevision := by
  refine ⟨?_, by decide⟩
  unfold revert_to_revision
  rw [filter_eq_nil_of_forall _ _ (fun r hr => decide_eq_false (h r hr))]

/-- Witness for C1: instance 1 has only revision 1 archived, so reverting
to revision 2 raises DoesNotExist. -/
theorem revert_missing_revision_witness :
    revert_to_revision exCfg exInstC2 exDBC2 (Value.vint 2) =
      .error PyErr.doesNotExist :=
  (revert_missing_revision_raises_doesNotExist exCfg exInstC2 exDBC2
    (Value.vint 2) (by decide)).1

/-- C2 counterexample: reverting instance 1, whose live revision number is
2, to revision 1 changes the in-memory revision-number field to 1, so the
revision-number field is not left unchanged. -/
theorem revert_modifies_revision_field_counterexample :
    alookup exInstC2.fields "revision" = some (Value.vint 2) ∧
    (match revert_to_revision exCfg exInstC2 exDBC2 (Value.vint 1) with
     | .ok i => alookup i.fields "revision"
     | .error _ => none) = some (Value.vint 1) := by
  exact ⟨by decide, by decide⟩

/-- C2 amended: with exactly one matching revision record, revert copies
every non-primary-key field not listed in unrevised_fields from the record
onto the instance in memory — the revision-number field included, which
therefore takes the value stored on that record — and leaves the primary
key, the snapshot, and every other field unchanged.  The operation reads
the store and writes no row, so nothing is persisted or deleted. -/
theorem revert_copies_all_revised_fields (cfg : ModelConfig)
    (inst : PyInstance) (db : DB) (n : Value) (old : RevisionRecord)
    (hmatch : db.revisions.filter (fun r =>
        decide (r.fkey = inst.pk ∧
          alookup r.fields cfg.revision_field_name = some n)) = [old]) :
    ∃ inst1, revert_to_revision cfg inst db n = .ok inst1 ∧
      inst1.pk = inst.pk ∧
      inst1.snapshot = inst.snapshot ∧
      (∀ f ∈ revisedFieldNames cfg,
        alookup inst1.fields f = some (getattrD old.fields f)) ∧
      (∀ f, f ∉ revisedFieldNames cfg →
        alookup inst1.fields f = alookup inst.fields f) := by
  unfold revert_to_revision
  rw [hmatch]
  refine ⟨_, rfl, rfl, rfl, ?_, ?_⟩
  · intro f hf
    rw [alookup_foldl_aset (fun fname => getattrD old.fields fname)
      (revisedFieldNames cfg) inst.fields f]
    rw [if_pos hf]
  · intro f hf
    rw [alookup_foldl_aset (fun fname => getattrD old.fields fname)
      (revisedFieldNames cfg) inst.fields f]
    rw [if_neg hf]

/-- Witness for C2 at the concrete instance and store. -/
theorem revert_copies_all_revised_fields_witness :
    ∃ inst1, revert_to_revision exCfg exInstC2 exDBC2 (Value.vint 1) =
        .ok inst1 ∧
      inst1.pk = exInstC2.pk ∧
      inst1.snapshot = exInstC2.snapshot ∧
      (∀ f ∈ revisedFieldNames exCfg,
        alookup inst1.fields f = some (getattrD exOldC2.fields f)) ∧
      (∀ f, f ∉ revisedFieldNames exCfg →
        alookup inst1.fields f = alookup exInstC2.fields f) :=
  revert_copies_all_revised_fields exCfg exInstC2 exDBC2 (Value.vint 1)
    exOldC2 (by decide)

/-- C5 counterexample: on an instance without the snapshot attribute the
change check raises AttributeError and does not return false. -/
theorem changed_without_snapshot_counterexample :
    changed noSnapshotInstance =
      .error (PyErr.attributeError "_revised_initial_values") ∧
    changed noSnapshotInstance ≠ .ok false := by
  refine ⟨rfl, ?_⟩
  intro h
  rw [show changed noSnapshotInstance =
    .error (PyErr.attributeError "_revised_initial_values") from rfl] at h
  exact Except.noConfusion h

/-- C5 amended: hasChanged is true exactly when some snapshot entry differs
by value equality from the current field value, and false exactly when all
agree; an instance carrying no snapshot attribute at all raises
AttributeError instead of returning false.  (The post_init and post_save
hooks install a snapshot on every instance the framework constructs, so
the error case is unreachable through normal construction.) -/
theorem changed_iff_snapshot_differs (inst : PyInstance) :
    (∀ snap, inst.snapshot = some snap →
      ((changed inst = .ok true ↔
         ∃ kv ∈ snap, getattrD inst.fields kv.1 ≠ kv.2) ∧
       (changed inst = .ok false ↔
         ∀ kv ∈ snap, getattrD inst.fields kv.1 = kv.2))) ∧
    (inst.snapshot = none →
      changed inst = .error (PyErr.attributeError "_revised_initial_values")) := by
  constructor
  · intro snap hs
    have hch : changed inst =
        .ok (snap.any fun kv => decide (getattrD inst.fields kv.1 ≠ kv.2)) := by
      unfold changed
      rw [hs]
    rw [hch]
    constructor
    · simp only [Except.ok.injEq]
      constructor
      · intro hany
        obtain ⟨kv, hm, hp⟩ := List.any_eq_true.mp hany
        exact ⟨kv, hm, of_decide_eq_true hp⟩
      · rintro ⟨kv, hm, hp⟩
        exact List.any_eq_true.mpr ⟨kv, hm, decide_eq_true hp⟩
    · simp only [Except.ok.injEq]
      constructor
      · intro hany kv hm
        by_contra hne
        have ht : snap.any
            (fun kv => decide (getattrD inst.fields kv.1 ≠ kv.2)) = true :=
          List.any_eq_true.mpr ⟨kv, hm, decide_eq_true hne⟩
        rw [hany] at ht
        exact Bool.noConfusion ht
      · intro h
        cases hb : snap.any
            (fun kv => decide (getattrD inst.fields kv.1 ≠ kv.2)) with
        | false => rfl
        | true =>
          obtain ⟨kv, hm, hp⟩ := List.any_eq_true.mp hb
          exact absurd (h kv hm) (of_decide_eq_true hp)
  · intro hs
    unfold changed
    rw [hs]

/-- Witness for C5: a snapshot entry differs, so hasChanged is true. -/
theorem changed_iff_snapshot_differs_witness : changed exInstC3 = .ok true :=
  ((changed_iff_snapshot_differs exInstC3).1
    [("name", Value.vstr "A"), ("revision", Value.vint 1)] rfl).1.mpr
    ⟨("name", Value.vstr "A"), by decide, by decide⟩

/-- C4: the first save of a revision record (primary key unset) assigns the
next key and appends the row; any save of a record whose primary key is
set raises RevisionExists carrying the revision number of the record and
its repr, whatever the field values are.  The raise precedes any store
operation, so a failed save leaves the stored rows untouched. -/
theorem revision_save_write_once (cfg : ModelConfig) (rec : RevisionRecord)
    (db : DB) :
    (rec.pk = none →
      revision_model_save cfg rec db =
        .ok ({ rec with pk := some db.nextRevisionPk },
             { db with
               revisions :=
                 db.revisions ++ [{ rec with pk := some db.nextRevisionPk }],
               nextRevisionPk := db.nextRevisionPk + 1 })) ∧
    (∀ p v, rec.pk = some p →
      alookup rec.fields cfg.revision_field_name = some v →
      revision_model_save cfg rec db =
        .error (PyErr.revisionExists v (reprRevision cfg rec))) := by
  constructor
  · intro h
    unfold revision_model_save
    rw [h]
  · intro p v h hv
    unfold revision_model_save
    rw [h, hv]

/-- Witness for C4: the first save of a fresh record persists it; saving
the persisted record again raises RevisionExists. -/
theorem revision_save_write_once_witness :
    revision_model_save exCfg exRecNew emptyDB =
      .ok ({ exRecNew with pk := some 0 },
           { emptyDB with
             revisions := [{ exRecNew with pk := some 0 }],
             nextRevisionPk := 1 }) ∧
    revision_model_save exCfg { exRecNew with pk := some 0 }
      { emptyDB with
        revisions := [{ exRecNew with pk := some 0 }],
        nextRevisionPk := 1 } =
      .error (PyErr.revisionExists (Value.vint 1)
        (reprRevision exCfg { exRecNew with pk := some 0 })) :=
  ⟨(revision_save_write_once exCfg exRecNew emptyDB).1 rfl,
   (revision_save_write_once exCfg { exRecNew with pk := some 0 }
      { emptyDB with
        revisions := [{ exRecNew with pk := some 0 }],
        nextRevisionPk := 1 }).2 0 (Value.vint 1) rfl rfl⟩

/-- C10: the write-once guard checks only that the primary key is set, not
that the record was ever stored: a record constructed with a primary key
already assigned fails even its very first save with RevisionExists, and
since the raise precedes any store operation the record is never
inserted. -/
theorem revision_save_guard_tests_pk_only (cfg : ModelConfig)
    (rec : RevisionRecord) (db : DB) (p : Nat) (v : Value)
    (hpk : rec.pk = some p) (_hnever : rec ∉ db.revisions)
    (hv : alookup rec.fields cfg.revision_field_name = some v) :
    revision_model_save cfg rec db =
      .error (PyErr.revisionExists v (reprRevision cfg rec)) := by
  unfold revision_model_save
  rw [hpk, hv]

/-- Witness for C10: a record with a preassigned key that is absent from
the store still fails its first save. -/
theorem revision_save_guard_tests_pk_only_witness :
    revision_model_save exCfg exRecPreassigned emptyDB =
      .error (PyErr.revisionExists (Value.vint 3)
        (reprRevision exCfg exRecPreassigned)) :=
  revision_save_guard_tests_pk_only exCfg exRecPreassigned emptyDB 7
    (Value.vint 3) rfl (by decide) rfl

/-- C8: deep delete removes exactly the revision records of the instance
and then the instance row, archiving nothing; shallow delete first
archives the snapshot as one final revision record and then removes the
instance row, leaving that record and all earlier ones in the store. -/
theorem delete_deep_and_shallow (cfg : ModelConfig) (inst : PyInstance)
    (db : DB) (snap : List (String × Value)) (v : Value)
    (hsnap : inst.snapshot = some snap)
    (hrev : alookup snap cfg.revision_field_name = some v) :
    (∃ db1, delete cfg inst db true = .ok db1 ∧
      db1.revisions = db.revisions.filter (fun r => decide (r.fkey ≠ inst.pk)) ∧
      db1.instances = db.instances.filter (fun q => decide (some q.1 ≠ inst.pk))) ∧
    (∃ db2, delete cfg inst db false = .ok db2 ∧
      db2.revisions = db.revisions ++
        [{ pk := some db.nextRevisionPk, fkey := inst.pk, fields := snap }] ∧
      db2.instances = db.instances.filter (fun q => decide (some q.1 ≠ inst.pk))) := by
  constructor
  · exact ⟨_, rfl, rfl, rfl⟩
  · have hsr : save_revision cfg inst db =
        .ok (v, { db with
          revisions := db.revisions ++
            [{ pk := some db.nextRevisionPk, fkey := inst.pk, fields := snap }],
          nextRevisionPk := db.nextRevisionPk + 1 }) := by
      unfold save_revision
      rw [hsnap]
      simp only [revision_model_save]
      rw [hrev]
    unfold delete
    rw [hsr]
    exact ⟨_, rfl, rfl, rfl⟩

/-- Witness for C8 at the concrete instance and store. -/
theorem delete_deep_and_shallow_witness :
    (∃ db1, delete exCfg exInstC2 exDBC2 true = .ok db1 ∧
      db1.revisions = exDBC2.revisions.filter
        (fun r => decide (r.fkey ≠ exInstC2.pk)) ∧
      db1.instances = exDBC2.instances.filter
        (fun q => decide (some q.1 ≠ exInstC2.pk))) ∧
    (∃ db2, delete exCfg exInstC2 exDBC2 false = .ok db2 ∧
      db2.revisions = exDBC2.revisions ++
        [{ pk := some exDBC2.nextRevisionPk, fkey := exInstC2.pk,
           fields := [("name", Value.vstr "B"), ("revision", Value.vint 2)] }] ∧
      db2.instances = exDBC2.instances.filter
        (fun q => decide (some q.1 ≠ exInstC2.pk))) :=
  delete_deep_and_shallow exCfg exInstC2 exDBC2
    [("name", Value.vstr "B"), ("revision", Value.vint 2)]
    (Value.vint 2) rfl rfl

/-- C3: with a primary key assigned and a detected change, save first
persists a new revision record whose field values are exactly the snapshot
values (the snapshot revision number included), then sets the instance
revision field to the archived revision number plus one, then persists the
instance; with no primary key, or with no change, it persists the instance
and appends no revision record. -/
theorem save_archives_snapshot_then_bumps_revision (cfg : ModelConfig)
    (inst : PyInstance) (db : DB) (p : Nat) (snap : List (String × Value))
    (r : Int) (hpk : inst.pk = some p) (hsnap : inst.snapshot = some snap)
    (hrev : alookup snap cfg.revision_field_name = some (Value.vint r)) :
    (changed inst = .ok true →
      ∃ inst1 db1, save cfg inst db = .ok (inst1, db1) ∧
        db1.revisions = db.revisions ++
          [{ pk := some db.nextRevisionPk, fkey := some p, fields := snap }] ∧
        getattrD inst1.fields cfg.revision_field_name = Value.vint (r + 1) ∧
        inst1.pk = some p ∧
        alookup db1.instances p = some inst1.fields) ∧
    (changed inst = .ok false →
      ∃ inst1 db1, save cfg inst db = .ok (inst1, db1) ∧
        db1.revisions = db.revisions ∧
        alookup db1.instances p = some inst1.fields) ∧
    (∀ inst0 : PyInstance, inst0.pk = none →
      ∃ inst1 db1, save cfg inst0 db = .ok (inst1, db1) ∧
        db1.revisions = db.revisions ∧
        inst1.pk = some db.nextInstancePk ∧
        alookup db1.instances db.nextInstancePk = some inst1.fields) := by
  refine ⟨?_, ?_, ?_⟩
  · intro hch
    have hsr : save_revision cfg inst db =
        .ok (Value.vint r, { db with
          revisions := db.revisions ++
            [{ pk := some db.nextRevisionPk, fkey := some p, fields := snap }],
          nextRevisionPk := db.nextRevisionPk + 1 }) := by
      unfold save_revision
      rw [hsnap]
      simp only [revision_model_save, hpk]
      rw [hrev]
    have hsave : save cfg inst db =
        .ok (super_save cfg
          (setattrF inst cfg.revision_field_name (Value.vint (r + 1)))
          { db with
            revisions := db.revisions ++
              [{ pk := some db.nextRevisionPk, fkey := some p, fields := snap }],
            nextRevisionPk := db.nextRevisionPk + 1 }) := by
      simp only [save, hpk, hch, hsr, valueAddOne]
    refine ⟨_, _, hsave, ?_, ?_, ?_, ?_⟩
    · simp only [super_save, setattrF, hpk]
    · simp only [super_save, setattrF, record_model_values, hpk]
      unfold getattrD
      rw [alookup_aset_self]
      rfl
    · simp only [super_save, setattrF, record_model_values, hpk]
    · simp only [super_save, setattrF, record_model_values, hpk]
      rw [alookup_aset_self]
  · intro hch
    have hsave : save cfg inst db = .ok (super_save cfg inst db) := by
      simp only [save, hpk, hch]
    refine ⟨_, _, hsave, ?_, ?_⟩
    · simp only [super_save, hpk]
    · simp only [super_save, record_model_values, hpk]
      rw [alookup_aset_self]
  · intro inst0 h0
    have hsave : save cfg inst0 db = .ok (super_save cfg inst0 db) := by
      simp only [save, h0]
    refine ⟨_, _, hsave, ?_, ?_, ?_⟩
    · simp only [super_save, h0]
    · simp only [super_save, record_model_values, h0]
    · simp only [super_save, record_model_values, h0]
      rw [alookup_aset_self]

/-- Witness for C3: saving the changed instance 1 archives its snapshot at
revision 1 and bumps the live revision field to 2. -/
theorem save_archives_snapshot_then_bumps_revision_witness :
    ∃ inst1 db1, save exCfg exInstC3 exDBC3 = .ok (inst1, db1) ∧
      db1.revisions = exDBC3.revisions ++
        [{ pk := some exDBC3.nextRevisionPk, fkey := some 1,
           fields := [("name", Value.vstr "A"), ("revision", Value.vint 1)] }] ∧
      getattrD inst1.fields exCfg.revision_field_name = Value.vint (1 + 1) ∧
      inst1.pk = some 1 ∧
      alookup db1.instances 1 = some inst1.fields :=
  (save_archives_snapshot_then_bumps_revision exCfg exInstC3 exDBC3 1
    [("name", Value.vstr "A"), ("revision", Value.vint 1)] 1
    rfl rfl rfl).1 rfl

/- Lemmas for the revision number monotonicity argument. -/

theorem rev_mem_revisedFieldNames (cfg : ModelConfig)
    (hc1 : cfg.revision_field_name ∈ cfg.fieldNames)
    (hc2 : cfg.revision_field_name ∉ cfg.unrevised_fields) :
    cfg.revision_field_name ∈ revisedFieldNames cfg := by
  unfold revisedFieldNames
  rw [List.mem_filter]
  exact ⟨hc1, decide_eq_true hc2⟩

theorem changed_false_imp (inst : PyInstance) (snap : List (String × Value))
    (hs : inst.snapshot = some snap) (h : changed inst = .ok false)
    (kv : String × Value) (hm : kv ∈ snap) :
    getattrD inst.fields kv.1 = kv.2 := by
  have hch : changed inst =
      .ok (snap.any fun kv => decide (getattrD inst.fields kv.1 ≠ kv.2)) := by
    unfold changed
    rw [hs]
  rw [hch] at h
  have hany : (snap.any fun kv => decide (getattrD inst.fields kv.1 ≠ kv.2))
      = false := by
    injection h
  by_contra hne
  have ht : (snap.any fun kv => decide (getattrD inst.fields kv.1 ≠ kv.2))
      = true := List.any_eq_true.mpr ⟨kv, hm, decide_eq_true hne⟩
  rw [hany] at ht
  exact Bool.noConfusion ht

theorem super_save_components (cfg : ModelConfig) (inst : PyInstance)
    (db : DB) :
    (super_save cfg inst db).1.fields = inst.fields ∧
    (super_save cfg inst db).1.snapshot =
      some ((revisedFieldNames cfg).map (fun f => (f, getattrD inst.fields f))) ∧
    (super_save cfg inst db).2.revisions = db.revisions ∧
    (super_save cfg inst db).1.pk ≠ none := by
  cases hpk : inst.pk with
  | none => simp [super_save, hpk, record_model_values]
  | some p => simp [super_save, hpk, record_model_values]

theorem save_preserves_inv (cfg : ModelConfig)
    (hc1 : cfg.revision_field_name ∈ cfg.fieldNames)
    (hc2 : cfg.revision_field_name ∉ cfg.unrevised_fields)
    (inst : PyInstance) (db : DB) (hinv : C9Inv cfg inst db) :
    ∃ inst1 db1, save cfg inst db = .ok (inst1, db1) ∧ C9Inv cfg inst1 db1 ∧
      inst1.pk ≠ none := by
  obtain ⟨harch, ⟨snap, hsnap, hsnaprev⟩, hpk0⟩ := hinv
  have hrevmem := rev_mem_revisedFieldNames cfg hc1 hc2
  cases hpk : inst.pk with
  | none =>
    obtain ⟨hrevnil, hfld⟩ := hpk0 hpk
    have hsave : save cfg inst db = .ok (super_save cfg inst db) := by
      simp only [save, hpk]
    obtain ⟨hf, hs, hr, hp⟩ := super_save_components cfg inst db
    refine ⟨(super_save cfg inst db).1, (super_save cfg inst db).2,
      by rw [hsave], ⟨?_, ?_, ?_⟩, hp⟩
    · unfold archivedRevisionNumbers at harch ⊢
      rw [hr]
      exact harch
    · refine ⟨_, hs, ?_⟩
      rw [alookup_map_self (fun f => getattrD inst.fields f) _ _ hrevmem]
      rw [hfld, hr, hrevnil]
      decide
    · intro h0
      exact absurd h0 hp
  | some p =>
    have hchb : changed inst =
        .ok (snap.any fun kv => decide (getattrD inst.fields kv.1 ≠ kv.2)) := by
      unfold changed
      rw [hsnap]
    cases hany : snap.any fun kv => decide (getattrD inst.fields kv.1 ≠ kv.2) with
    | false =>
      rw [hany] at hchb
      have hsave : save cfg inst db = .ok (super_save cfg inst db) := by
        simp only [save, hpk, hchb]
      obtain ⟨hf, hs, hr, hp⟩ := super_save_components cfg inst db
      have hmem := alookup_mem snap cfg.revision_field_name _ hsnaprev
      have hcur : getattrD inst.fields cfg.revision_field_name =
          Value.vint (db.revisions.length + 1) :=
        changed_false_imp inst snap hsnap hchb
          (cfg.revision_field_name, Value.vint (db.revisions.length + 1)) hmem
      refine ⟨(super_save cfg inst db).1, (super_save cfg inst db).2,
        by rw [hsave], ⟨?_, ?_, ?_⟩, hp⟩
      · unfold archivedRevisionNumbers at harch ⊢
        rw [hr]
        exact harch
      · refine ⟨_, hs, ?_⟩
        rw [alookup_map_self (fun f => getattrD inst.fields f) _ _ hrevmem]
        rw [hcur, hr]
      · intro h0
        exact absurd h0 hp
    | true =>
      rw [hany] at hchb
      have hsr : save_revision cfg inst db =
          .ok (Value.vint (db.revisions.length + 1),
            { db with
              revisions := db.revisions ++
                [{ pk := some db.nextRevisionPk, fkey := inst.pk, fields := snap }],
              nextRevisionPk := db.nextRevisionPk + 1 }) := by
        unfold save_revision
        rw [hsnap]
        simp only [revision_model_save]
        rw [hsnaprev]
      have hsave : save cfg inst db =
          .ok (super_save cfg
            (setattrF inst cfg.revision_field_name
              (Value.vint ((db.revisions.length : Int) + 1 + 1)))
            { db with
              revisions := db.revisions ++
                [{ pk := some db.nextRevisionPk, fkey := inst.pk, fields := snap }],
              nextRevisionPk := db.nextRevisionPk + 1 }) := by
        simp only [save, hpk, hchb, hsr, valueAddOne]
      obtain ⟨hf, hs, hr, hp⟩ := super_save_components cfg
        (setattrF inst cfg.revision_field_name
          (Value.vint ((db.revisions.length : Int) + 1 + 1)))
        { db with
          revisions := db.revisions ++
            [{ pk := some db.nextRevisionPk, fkey := inst.pk, fields := snap }],
          nextRevisionPk := db.nextRevisionPk + 1 }
      refine ⟨(super_save cfg
          (setattrF inst cfg.revision_field_name
            (Value.vint ((db.revisions.length : Int) + 1 + 1)))
          { db with
            revisions := db.revisions ++
              [{ pk := some db.nextRevisionPk, fkey := inst.pk, fields := snap }],
            nextRevisionPk := db.nextRevisionPk + 1 }).1,
        (super_save cfg
          (setattrF inst cfg.revision_field_name
            (Value.vint ((db.revisions.length : Int) + 1 + 1)))
          { db with
            revisions := db.revisions ++
              [{ pk := some db.nextRevisionPk, fkey := inst.pk, fields := snap }],
            nextRevisionPk := db.nextRevisionPk + 1 }).2,
        by rw [hsave], ⟨?_, ?_, ?_⟩, hp⟩
      · have hr2 : (super_save cfg
            (setattrF inst cfg.revision_field_name
              (Value.vint ((db.revisions.length : Int) + 1 + 1)))
            { db with
              revisions := db.revisions ++
                [{ pk := some db.nextRevisionPk, fkey := inst.pk, fields := snap }],
              nextRevisionPk := db.nextRevisionPk + 1 }).2.revisions =
            db.revisions ++
              [{ pk := some db.nextRevisionPk, fkey := inst.pk, fields := snap }] :=
          hr
        unfold archivedRevisionNumbers at harch ⊢
        rw [hr2]
        rw [List.map_append, List.map_cons, List.map_nil, harch]
        have hfrec : getattrD snap cfg.revision_field_name =
            Value.vint (db.revisions.length + 1) := by
          unfold getattrD
          rw [hsnaprev]
          rfl
        rw [hfrec]
        rw [List.length_append, List.length_cons, List.length_nil]
        have hlen : db.revisions.length + (0 + 1) = db.revisions.length + 1 :=
          by omega
        rw [hlen, List.range_succ, List.map_append, List.map_cons, List.map_nil]
      · have hr2 : (super_save cfg
            (setattrF inst cfg.revision_field_name
              (Value.vint ((db.revisions.length : Int) + 1 + 1)))
            { db with
              revisions := db.revisions ++
                [{ pk := some db.nextRevisionPk, fkey := inst.pk, fields := snap }],
              nextRevisionPk := db.nextRevisionPk + 1 }).2.revisions =
            db.revisions ++
              [{ pk := some db.nextRevisionPk, fkey := inst.pk, fields := snap }] :=
          hr
        refine ⟨_, hs, ?_⟩
        rw [alookup_map_self (fun f => getattrD
          (setattrF inst cfg.revision_field_name
            (Value.vint ((db.revisions.length : Int) + 1 + 1))).fields f)
          _ _ hrevmem]
        rw [hr2]
        simp only [setattrF, getattrD]
        rw [alookup_aset_self]
        simp only [Option.getD_some, List.length_append, List.length_cons,
          List.length_nil]
        rfl
      · intro h0
        exact absurd h0 hp

theorem runOps_preserves_inv (cfg : ModelConfig)
    (hc1 : cfg.revision_field_name ∈ cfg.fieldNames)
    (hc2 : cfg.revision_field_name ∉ cfg.unrevised_fields) :
    ∀ (ops : List Op) (inst : PyInstance) (db : DB), C9Inv cfg inst db →
      (revMutationAfterSaveOnly cfg ops = true ∨ inst.pk ≠ none) →
      ∃ inst1 db1, runOps cfg (inst, db) ops = .ok (inst1, db1) ∧
        C9Inv cfg inst1 db1 := by
  intro ops
  induction ops with
  | nil =>
    intro inst db hinv _
    exact ⟨inst, db, rfl, hinv⟩
  | cons op rest ih =>
    intro inst db hinv hP
    obtain ⟨harch, hsnapinv, hpk0⟩ := hinv
    cases op with
    | mutate f v =>
      have hnext : C9Inv cfg (setattrF inst f v) db ∧
          (revMutationAfterSaveOnly cfg rest = true ∨
            (setattrF inst f v).pk ≠ none) := by
        rcases hP with hP | hP
        · simp only [revMutationAfterSaveOnly, Bool.and_eq_true,
            decide_eq_true_eq] at hP
          obtain ⟨hfne, hrest⟩ := hP
          refine ⟨⟨harch, hsnapinv, ?_⟩, Or.inl hrest⟩
          intro h0
          obtain ⟨ha, hb2⟩ := hpk0 h0
          refine ⟨ha, ?_⟩
          unfold setattrF getattrD
          rw [alookup_aset_ne inst.fields f cfg.revision_field_name v
            (Ne.symm hfne)]
          exact hb2
        · exact ⟨⟨harch, hsnapinv, fun h0 => absurd h0 hP⟩, Or.inr hP⟩
      simp only [runOps]
      exact ih (setattrF inst f v) db hnext.1 hnext.2
    | save =>
      obtain ⟨inst1, db1, hsave, hinv1, hpk1⟩ :=
        save_preserves_inv cfg hc1 hc2 inst db ⟨harch, hsnapinv, hpk0⟩
      have hstep : runOps cfg (inst, db) (Op.save :: rest) =
          runOps cfg (inst1, db1) rest := by
        simp only [runOps, hsave]
      rw [hstep]
      exact ih inst1 db1 hinv1 (Or.inr hpk1)

theorem construct_inv (cfg : ModelConfig)
    (hc1 : cfg.revision_field_name ∈ cfg.fieldNames)
    (hc2 : cfg.revision_field_name ∉ cfg.unrevised_fields)
    (init : List (String × Value)) :
    C9Inv cfg (construct cfg init) emptyDB := by
  have hrevmem := rev_mem_revisedFieldNames cfg hc1 hc2
  have hbase : getattrD
      (cfg.fieldNames.map (fun f => (f, constructVal cfg init f)))
      cfg.revision_field_name = Value.vint 1 := by
    unfold getattrD
    rw [alookup_map_self (constructVal cfg init) _ _ hc1]
    unfold constructVal
    simp
  refine ⟨rfl, ?_, ?_⟩
  · refine ⟨_, rfl, ?_⟩
    rw [alookup_map_self (fun f => getattrD
      (cfg.fieldNames.map (fun f => (f, constructVal cfg init f))) f)
      _ _ hrevmem]
    rw [hbase]
    decide
  · intro _
    exact ⟨rfl, hbase⟩

/-- C9 counterexample: assigning the revision field before the first save
makes the first archived revision number 5, not 1 — construct with name A
and default revision 1, set revision to 5, save, change name, save. -/
theorem archived_revision_start_counterexample :
    (match runOps exCfg (construct exCfg [("name", Value.vstr "A")], emptyDB)
        exOpsBad with
     | .ok s => archivedRevisionNumbers exCfg s.2
     | .error _ => []) = [Value.vint 5] ∧
    Value.vint 5 ≠ Value.vint 1 := by
  exact ⟨by decide, by decide⟩

/-- C9 amended: across any sequence of construct, save, and mutate
operations in which the revision field is not assigned before the first
save, every operation succeeds and the revision numbers of the archived
revision records form the consecutive sequence 1, 2, 3, ...  (Assigning
the revision field before the first save persists a different starting
number, as the counterexample shows; assignments after the first save are
harmless because save archives the snapshot value of the field and then
overwrites it.) -/
theorem archived_revisions_consecutive (cfg : ModelConfig)
    (init : List (String × Value)) (ops : List Op)
    (hc1 : cfg.revision_field_name ∈ cfg.fieldNames)
    (hc2 : cfg.revision_field_name ∉ cfg.unrevised_fields)
    (hops : revMutationAfterSaveOnly cfg ops = true) :
    ∃ inst1 db1,
      runOps cfg (construct cfg init, emptyDB) ops = .ok (inst1, db1) ∧
      archivedRevisionNumbers cfg db1 =
        (List.range db1.revisions.length).map (fun k : Nat => Value.vint (k + 1)) := by
  obtain ⟨inst1, db1, hrun, hinv⟩ := runOps_preserves_inv cfg hc1 hc2 ops
    (construct cfg init) emptyDB (construct_inv cfg hc1 hc2 init)
    (Or.inl hops)
  exact ⟨inst1, db1, hrun, hinv.1⟩

/-- Witness for C9: construct, save, change the name, save again; the
archived numbers are consecutive from 1. -/
theorem archived_revisions_consecutive_witness :
    ∃ inst1 db1,
      runOps exCfg (construct exCfg [("name", Value.vstr "A")], emptyDB)
        [Op.save, Op.mutate "name" (Value.vstr "B"), Op.save] =
        .ok (inst1, db1) ∧
      archivedRevisionNumbers exCfg db1 =
        (List.range db1.revisions.length).map (fun k : Nat => Value.vint (k + 1)) :=
  archived_revisions_consecutive exCfg [("name", Value.vstr "A")]
    [Op.save, Op.mutate "name" (Value.vstr "B"), Op.save]
    (by decide) (by decide) (by decide)
